import Mathlib

/-!
Shallow embedding of the libjuice UDP socket helper (`src/udp.c`) and the
logging sink (`src/log.c`), used to check the natural-language specification
against the code.  Machine integers are modelled as `Nat` with explicit
`% 2^w` where overflow matters; C structs are modelled byte-faithfully as
Lean structures; OS interactions (getaddrinfo, socket, bind, getifaddrs,
getsockname, isatty, strftime, the random source) are inputs of the model.
-/

namespace LibJuice

/-! ## Data model: socket addresses

A `struct sockaddr` value is one of `sockaddr_in` (family `AF_INET = 2`:
2-byte family, 2-byte port, 4 address bytes, 8 zero-padding bytes),
`sockaddr_in6` (family `AF_INET6 = 10`: family, port, flowinfo, 16 address
bytes, scope id), or some other family carrying no data we track.  Equality
of two same-family values of this type corresponds to `memcmp` equality of
the underlying structs. -/

inductive Sockaddr where
  | inet (sin_port : Nat) (sin_addr : List Nat) (sin_zero : List Nat)
  | inet6 (sin6_port : Nat) (sin6_flowinfo : Nat) (sin6_addr : List Nat) (sin6_scope_id : Nat)
  | other (family : Nat)
deriving DecidableEq, Repr

/-- `sa_family` field: `AF_INET = 2`, `AF_INET6 = 10`. -/
def Sockaddr.family : Sockaddr → Nat
  | .inet _ _ _ => 2
  | .inet6 _ _ _ _ => 10
  | .other f => f

/-- `addr_record_t`: a sockaddr together with its stored length. -/
structure AddrRecord where
  addr : Sockaddr
  len : Nat
deriving DecidableEq, Repr

/-- Modelled from the spec: `addr_get_len` (from `addr.c`, not in `src/`)
returns the native address-structure size for the family
(`sizeof(struct sockaddr_in) = 16`, `sizeof(struct sockaddr_in6) = 28`),
and 0 for an unsupported family. -/
def addr_get_len : Sockaddr → Nat
  | .inet _ _ _ => 16
  | .inet6 _ _ _ _ => 28
  | .other _ => 0

/-- Modelled from the spec: `addr_set_port` (from `addr.c`, not in `src/`)
stamps the port field of the sockaddr for the INET families and leaves
other families unchanged. -/
def addr_set_port (port : Nat) : Sockaddr → Sockaddr
  | .inet _ a z => .inet port a z
  | .inet6 _ fl a sc => .inet6 port fl a sc
  | .other f => .other f

/-! ## `has_duplicate_addr` (`udp.c` lines 181-204) -/

/-- The per-record test of `has_duplicate_addr`'s loop body: families must
match; for `AF_INET` the code does `memcmp(&record->addr, addr, record->len)`
over the whole 16-byte `sockaddr_in` (family, port, address, padding), i.e.
structural equality; for `AF_INET6` it compares only the first 8 bytes
(64 bits) of `sin6_addr`. -/
def dup_pair (record : AddrRecord) (addr : Sockaddr) : Bool :=
  record.addr.family = addr.family &&
    match addr, record.addr with
    | .inet p a z, .inet rp ra rz => p = rp && a = ra && z = rz
    | .inet6 _ _ a _, .inet6 _ _ ra _ => a.take 8 = ra.take 8
    | _, _ => false

/-- `has_duplicate_addr(addr, records, count)`: scans the accepted records. -/
def has_duplicate_addr (addr : Sockaddr) (records : List AddrRecord) : Bool :=
  records.any fun record => dup_pair record addr

/-! ## `udp_get_addrs` (`udp.c` lines 206-333, POSIX `getifaddrs` path) -/

/-- One `struct ifaddrs` entry: interface flags and the optional address. -/
structure Ifaddr where
  up : Bool
  loopback : Bool
  addr : Option Sockaddr
deriving DecidableEq, Repr

/-- Behaviour of the `addr.c` classification helpers, which are not in
`src/`; they are kept abstract.  `isTemp6` is the decision of
`addr_is_temp_inet6` on the 16 `sin6_addr` bytes of an IPv6 address
(a temporary/privacy address per RFC 4941 is a property of the address
bytes); `isLocal` is `addr_is_local` (link-local/loopback classification). -/
structure IfaceEnv where
  isLocal : Sockaddr → Bool
  isTemp6 : List Nat → Bool

/-- Modelled from the spec: `addr_is_temp_inet6` (from `addr.c`, not in
`src/`) holds only for temporary (RFC 4941) IPv6 addresses, decided from
the address bytes; false for any non-IPv6 sockaddr. -/
def addr_is_temp_inet6 (env : IfaceEnv) : Sockaddr → Bool
  | .inet6 _ _ a _ => env.isTemp6 a
  | _ => false

/-- First pass of `udp_get_addrs` (lines 302-311): scan all up,
non-loopback interfaces for a temporary IPv6 address, stopping at the
first hit. -/
def scan_has_temp_inet6 (env : IfaceEnv) (ifas : List Ifaddr) : Bool :=
  ifas.any fun ifa =>
    ifa.up && !ifa.loopback &&
      (match ifa.addr with
       | some sa => addr_is_temp_inet6 env sa
       | none => false)

/-- The per-interface filter of the second pass (lines 313-322): skip
down or loopback interfaces, null addresses, non-INET families, local
addresses, permanent IPv6 addresses when a temporary one exists, and
addresses with no valid length. -/
def eligible (env : IfaceEnv) (hasTemp : Bool) (ifa : Ifaddr) : Option Sockaddr :=
  if !ifa.up || ifa.loopback then none
  else
    match ifa.addr with
    | none => none
    | some sa =>
      if (sa.family = 2 || sa.family = 10) && !env.isLocal sa &&
          !(hasTemp && sa.family = 10 && !addr_is_temp_inet6 env sa) &&
          decide (0 < addr_get_len sa) then
        some sa
      else none

/-- The record written for an accepted address (lines 326-328): `memcpy`
the sockaddr, store its length, then stamp the bound port. -/
def write_record (port : Nat) (sa : Sockaddr) : AddrRecord :=
  ⟨addr_set_port port sa, addr_get_len sa⟩

/-- Body of the second pass for one eligible address (lines 323-330):
check `has_duplicate_addr` against the records stored so far
(`current - records` of them), increment the total if not a duplicate,
and store the record only while `current != end` (fewer than `count`
records stored). -/
def gather_step (port count : Nat) (st : Nat × List AddrRecord) (sa : Sockaddr) :
    Nat × List AddrRecord :=
  if has_duplicate_addr sa st.2 then st
  else
    (st.1 + 1,
     if st.2.length < count then st.2 ++ [write_record port sa] else st.2)

/-- One iteration of the second pass over a `struct ifaddrs` entry. -/
def gather_fold (env : IfaceEnv) (hasTemp : Bool) (port count : Nat)
    (st : Nat × List AddrRecord) (ifa : Ifaddr) : Nat × List AddrRecord :=
  match eligible env hasTemp ifa with
  | none => st
  | some sa => gather_step port count st sa

/-- The two passes of `udp_get_addrs` after the port check: compute
`has_temp_inet6` over the whole interface list, then filter, deduplicate
and emit.  Returns (total eligible count `ret`, records written). -/
def udp_get_addrs_core (env : IfaceEnv) (port count : Nat) (ifas : List Ifaddr) :
    Nat × List AddrRecord :=
  ifas.foldl (gather_fold env (scan_has_temp_inet6 env ifas) port count) (0, [])

/-- `udp_get_addrs(sock, records, count)` on the POSIX `getifaddrs` path:
`port` is the value reported by `udp_get_port(sock)` (0 meaning the OS
could not report it, line 208: return -1, modelled as `none`), `ifas` the
interface list reported by `getifaddrs`. -/
def udp_get_addrs (env : IfaceEnv) (port count : Nat) (ifas : List Ifaddr) :
    Option (Nat × List AddrRecord) :=
  if port = 0 then none
  else some (udp_get_addrs_core env port count ifas)

/-! ## `get_next_port_in_range` (`udp.c` lines 35-50)

The C function holds a `static uint32_t count` seeded from
`juice_rand32()` whenever its stored value is 0, and post-increments it
(uint32 wraparound) on every call.  We pass the counter state explicitly
and return the updated state; `seed` is the value `juice_rand32()` would
return (from `random.c`, not in `src/`; per the spec a
cryptographically-sourced 32-bit value). -/

/-- `get_next_port_in_range(begin, end)` acting on counter state `count`:
returns `(next, count')`.  `uint16_t next = begin + count++ % (diff + 1)`
is modelled with the explicit `% 65536` truncation of the `uint16_t`
conversion and `% 2 ^ 32` for the uint32 increment. -/
def get_next_port_in_range (pbegin pend seed count : Nat) : Nat × Nat :=
  let begin1 := if pbegin = 0 then 1024 else pbegin
  let end1 := if pend = 0 then 0xFFFF else pend
  let count1 := if count = 0 then seed else count
  let diff := if begin1 < end1 then end1 - begin1 else 0
  ((begin1 + count1 % (diff + 1)) % 65536, (count1 + 1) % 4294967296)

/-! ## `udp_create_socket` (`udp.c` lines 52-142)

The syscall layer is an input: whether `getaddrinfo` succeeds and which
families appear in `ai_list`, whether `socket()` and the `FIONBIO` ioctl
succeed, and the outcome of each `bind` attempt.  The result records the
resource bookkeeping the claims are about: whether the resolved address
list was freed (`freeaddrinfo`), whether the socket was created, and
whether it was closed before returning.  The code contains no
`closesocket` call, so the model never sets `sockClosed`. -/

/-- Outcome of one `bind` call: success, failure with `EADDRINUSE`, or
failure with any other errno. -/
inductive BindOutcome where
  | ok
  | addrinuse
  | otherr
deriving DecidableEq, Repr

/-- OS behaviour for one `udp_create_socket` run. -/
structure OSEnv where
  gai_ok : Bool
  families : List Nat
  socket_ok : Bool
  ioctl_ok : Bool
  bindEph : BindOutcome
  bindAt : Nat → BindOutcome
  rand32 : Nat

/-- `udp_socket_config_t`. -/
structure Config where
  port_begin : Nat
  port_end : Nat
deriving DecidableEq, Repr

/-- What `udp_create_socket` did: whether a valid socket was returned,
the port of the successful ranged bind (none on the ephemeral path, where
the OS picks), whether `freeaddrinfo` ran, whether the socket was
created, whether it was closed, and how many `bind` calls were made. -/
structure CreateResult where
  sock : Bool
  boundPort : Option Nat
  aiFreed : Bool
  sockCreated : Bool
  sockClosed : Bool
  attempts : Nat
deriving DecidableEq, Repr

/-- `find_family` (lines 28-33): does the resolved list contain the
family? -/
def find_family (families : List Nat) (family : Nat) : Bool :=
  families.any fun f => f = family

/-- The ranged-bind do-while loop (lines 125-133): attempt `i` picks a
port from the allocator (threading the counter state), binds, and on
`EADDRINUSE` retries while `retries-- > 0`.  `fuel` (the first argument)
is the current value of `retries`, clamped to 0 for a negative
`port_end - port_begin`.  Returns (port bound on success, number of bind
attempts, final counter). -/
def bind_loop (os : OSEnv) (pbegin pend : Nat) : Nat → Nat → Nat → Option Nat × Nat × Nat
  | 0, i, count =>
    let pc := get_next_port_in_range pbegin pend os.rand32 count
    match os.bindAt i with
    | .ok => (some pc.1, 1, pc.2)
    | .addrinuse => (none, 1, pc.2)
    | .otherr => (none, 1, pc.2)
  | fuel + 1, i, count =>
    let pc := get_next_port_in_range pbegin pend os.rand32 count
    match os.bindAt i with
    | .ok => (some pc.1, 1, pc.2)
    | .addrinuse =>
      let r := bind_loop os pbegin pend fuel (i + 1) pc.2
      (r.1, r.2.1 + 1, r.2.2)
    | .otherr => (none, 1, pc.2)

/-- `udp_create_socket(config)` acting on allocator counter state
`count0`; returns the result and the final counter state. -/
def udp_create_socket (os : OSEnv) (config : Config) (count0 : Nat) :
    CreateResult × Nat :=
  if !os.gai_ok then
    (⟨false, none, false, false, false, 0⟩, count0)
  else if !(find_family os.families 10 || find_family os.families 2) then
    (⟨false, none, true, false, false, 0⟩, count0)
  else if !os.socket_ok then
    (⟨false, none, true, false, false, 0⟩, count0)
  else if !os.ioctl_ok then
    (⟨false, none, true, true, false, 0⟩, count0)
  else if config.port_begin = 0 && config.port_end = 0 then
    match os.bindEph with
    | .ok => (⟨true, none, true, true, false, 1⟩, count0)
    | _ => (⟨false, none, true, true, false, 1⟩, count0)
  else
    let fuel := ((config.port_end : Int) - (config.port_begin : Int)).toNat
    let r := bind_loop os config.port_begin config.port_end fuel 0 count0
    match r.1 with
    | some p => (⟨true, some p, true, true, false, r.2.1⟩, r.2.2)
    | none => (⟨false, none, true, true, false, r.2.1⟩, r.2.2)

/-! ## `udp_get_local_addr` (`udp.c` lines 155-178) -/

/-- `udp_get_local_addr(sock, record)`: the input is the sockaddr
reported by `getsockname` (`none` when it fails, returning -1, modelled
as `none`).  On success the address bytes are rewritten to the loopback
equivalent of the family: `127.0.0.1` for `AF_INET` (4-byte `memcpy`
into `sin_addr`), `::1` for `AF_INET6` (`memset` of the first 15 bytes
to 0, last byte 1); other families pass through; the port is untouched. -/
def udp_get_local_addr : Option Sockaddr → Option AddrRecord
  | none => none
  | some sa =>
    let rewritten : Sockaddr :=
      match sa with
      | .inet p _ z => .inet p [127, 0, 0, 1] z
      | .inet6 p fl _ sc => .inet6 p fl (List.replicate 15 0 ++ [1]) sc
      | .other f => .other f
    some ⟨rewritten, addr_get_len sa⟩

/-! ## `juice_log_write` (`log.c` lines 78-128)

Text is modelled as `List Char`.  The formatted body produced by the C
varargs formatting of `fmt` with its arguments is an input `msg`; the
`strftime "%H:%M:%S"` rendering of the current time is an input `ts`
(the empty list when `strftime` returns 0, line 108-109); `isatty` on
stdout is the input `useColor`. -/

/-- Global logger state: the level filter and whether a callback is
installed. -/
structure LogState where
  log_level : Nat
  has_cb : Bool
deriving DecidableEq, Repr

/-- Where one `juice_log_write` call sent its output. -/
inductive LogOutput where
  | dropped
  | callback (level : Nat) (message : List Char)
  | stdout (text : List Char)
deriving DecidableEq, Repr

/-- `BUFFER_SIZE` (`log.c` line 35). -/
def BUFFER_SIZE : Nat := 4096

/-- `log_level_names` (`log.c` line 37). -/
def log_level_names : List (List Char) :=
  [['V', 'E', 'R', 'B', 'O', 'S', 'E'], ['D', 'E', 'B', 'U', 'G'],
   ['I', 'N', 'F', 'O'], ['W', 'A', 'R', 'N'], ['E', 'R', 'R', 'O', 'R'],
   ['F', 'A', 'T', 'A', 'L']]

/-- `log_level_colors` (`log.c` lines 39-46): ANSI escape sequences. -/
def log_level_colors : List (List Char) :=
  [['\x1B', '[', '9', '0', 'm'], ['\x1B', '[', '9', '6', 'm'],
   ['\x1B', '[', '3', '9', 'm'], ['\x1B', '[', '9', '3', 'm'],
   ['\x1B', '[', '9', '1', 'm'],
   ['\x1B', '[', '9', '7', 'm', '\x1B', '[', '4', '1', 'm']]

/-- `strrchr(file, '/')` + 1 when a slash exists, else `file`
(lines 86-90): the part of the path after the last slash. -/
def log_filename (file : List Char) : List Char :=
  (file.reverse.takeWhile fun c => c ≠ '/').reverse

/-- The `"%s:%d: "` source-location header of the message. -/
def log_header (filename : List Char) (line : Nat) : List Char :=
  filename ++ [':'] ++ Nat.toDigits 10 line ++ [':', ' ']

/-- Callback-path message formatting (lines 92-103): `snprintf` the
header into the 4096-byte buffer, then `vsnprintf` the body after it
with the remaining space; each call keeps one byte for the NUL, so the
message holds at most `BUFFER_SIZE - 1` characters.  (When the header
alone reaches `BUFFER_SIZE` the C code would index past the buffer;
callers never pass multi-kilobyte `__FILE__` strings, and the model
truncates the header in that case.) -/
def callback_message (filename : List Char) (line : Nat) (msg : List Char) : List Char :=
  let hd := log_header filename line
  if hd.length < BUFFER_SIZE then hd ++ msg.take (BUFFER_SIZE - hd.length - 1)
  else hd.take (BUFFER_SIZE - 1)

/-- `"%-7s"`: left-justified, blank-padded to a minimum width of 7. -/
def pad7 (s : List Char) : List Char :=
  s ++ List.replicate (7 - s.length) ' '

/-- The text written to stdout on the no-callback path (lines 104-125):
optional color prefix, `"%s %-7s %s:%d: "` header with the timestamp,
level name and source location, the formatted message via `vfprintf`
(no length limit), optional color reset, and a newline. -/
def stdout_text (useColor : Bool) (ts : List Char) (level : Nat)
    (filename : List Char) (line : Nat) (msg : List Char) : List Char :=
  (if useColor then log_level_colors.getD level [] else []) ++
    ts ++ [' '] ++ pad7 (log_level_names.getD level []) ++ [' '] ++
    log_header filename line ++ msg ++
    (if useColor then ['\x1B', '[', '0', 'm', '\x1B', '[', '0', 'K'] else []) ++
    ['\n']

/-- `juice_log_write(level, file, line, fmt, ...)`: drop the message when
`level < log_level` (line 81); otherwise send it to the callback when one
is installed, else to stdout. -/
def juice_log_write (st : LogState) (useColor : Bool) (ts : List Char)
    (level : Nat) (file : List Char) (line : Nat) (msg : List Char) : LogOutput :=
  if level < st.log_level then .dropped
  else
    let filename := log_filename file
    if st.has_cb then .callback level (callback_message filename line msg)
    else .stdout (stdout_text useColor ts level filename line msg)

/-- Length of the payload carried by a `LogOutput`. -/
def LogOutput.textLen : LogOutput → Nat
  | .dropped => 0
  | .callback _ m => m.length
  | .stdout t => t.length

/-- Whether a `LogOutput` went to stdout. -/
def LogOutput.isStdout : LogOutput → Bool
  | .stdout _ => true
  | _ => false

/-! ## Derived notions used by the theorems -/

/-- The sequence of addresses that pass the per-interface filter of
`udp_get_addrs`, in enumeration order, with the privacy flag computed
over the whole interface list. -/
def eligible_list (env : IfaceEnv) (ifas : List Ifaddr) : List Sockaddr :=
  ifas.filterMap (eligible env (scan_has_temp_inet6 env ifas))

/-! ## Lemmas about the gathering loop -/

lemma foldl_gather_fold_eq (env : IfaceEnv) (hasTemp : Bool) (port count : Nat) :
    ∀ (ifas : List Ifaddr) (st : Nat × List AddrRecord),
      ifas.foldl (gather_fold env hasTemp port count) st
        = (ifas.filterMap (eligible env hasTemp)).foldl (gather_step port count) st
  | [], _ => rfl
  | ifa :: ifas, st => by
    rw [List.foldl_cons, List.filterMap_cons, gather_fold]
    cases h : eligible env hasTemp ifa with
    | none => exact foldl_gather_fold_eq env hasTemp port count ifas st
    | some sa =>
      rw [List.foldl_cons]
      exact foldl_gather_fold_eq env hasTemp port count ifas _

lemma pair_eq_of (a c : Nat) (b d : List AddrRecord) (h1 : a = c) (h2 : b = d) :
    (a, b) = (c, d) := by rw [h1, h2]

lemma udp_get_addrs_core_eq (env : IfaceEnv) (port count : Nat) (ifas : List Ifaddr) :
    udp_get_addrs_core env port count ifas
      = (eligible_list env ifas).foldl (gather_step port count) (0, []) :=
  foldl_gather_fold_eq env _ port count ifas _

lemma gather_step_length_le (port count : Nat) (st : Nat × List AddrRecord)
    (sa : Sockaddr) (h : st.2.length ≤ count) :
    (gather_step port count st sa).2.length ≤ count := by
  unfold gather_step
  split
  · exact h
  · simp only
    split
    · simpa using Nat.succ_le_of_lt (by assumption)
    · exact h

lemma foldl_gather_step_length_le (port count : Nat) :
    ∀ (l : List Sockaddr) (st : Nat × List AddrRecord), st.2.length ≤ count →
      ((l.foldl (gather_step port count) st).2.length ≤ count)
  | [], _, h => h
  | sa :: l, st, h =>
    foldl_gather_step_length_le port count l _ (gather_step_length_le port count st sa h)

lemma has_duplicate_addr_false_iff (addr : Sockaddr) (records : List AddrRecord) :
    has_duplicate_addr addr records = false ↔ ∀ r ∈ records, dup_pair r addr = false := by
  simp [has_duplicate_addr, List.any_eq_false]

/-- Closed form of the gathering fold when no eligible address duplicates
an earlier accepted one: the total counts every eligible address and the
records are the port-stamped images of the first `count` of them. -/
lemma foldl_gather_step_nodup (port count : Nat) :
    ∀ (l : List Sockaddr) (n0 : Nat) (recs0 : List AddrRecord),
      recs0.length ≤ count →
      (∀ a ∈ l, has_duplicate_addr a recs0 = false) →
      l.Pairwise (fun a b => dup_pair (write_record port a) b = false) →
      l.foldl (gather_step port count) (n0, recs0)
        = (n0 + l.length, recs0 ++ (l.take (count - recs0.length)).map (write_record port))
  | [], n0, recs0, _, _, _ => by simp
  | a :: l, n0, recs0, hlen, hdup, hpw => by
    have hda : has_duplicate_addr a recs0 = false := hdup a (List.mem_cons_self a l)
    have hstep : gather_step port count (n0, recs0) a
        = (n0 + 1, if recs0.length < count then recs0 ++ [write_record port a] else recs0) := by
      simp [gather_step, hda]
    rw [List.foldl_cons, hstep]
    by_cases hlt : recs0.length < count
    · rw [if_pos hlt]
      have hrec := foldl_gather_step_nodup port count l (n0 + 1) (recs0 ++ [write_record port a])
        (by simpa using hlt)
        (by
          intro b hb
          rw [has_duplicate_addr_false_iff]
          intro r hr
          rcases List.mem_append.mp hr with hr0 | hr1
          · exact (has_duplicate_addr_false_iff b recs0).mp (hdup b (List.mem_cons_of_mem a hb)) r hr0
          · have : r = write_record port a := by simpa using hr1
            subst this
            exact (List.pairwise_cons.mp hpw).1 b hb)
        ((List.pairwise_cons.mp hpw).2)
      rw [hrec]
      have hlen1 : (recs0 ++ [write_record port a]).length = recs0.length + 1 := by simp
      have htake : (a :: l).take (count - recs0.length)
          = a :: l.take (count - (recs0.length + 1)) := by
        have : count - recs0.length = (count - (recs0.length + 1)) + 1 := by omega
        rw [this, List.take_succ_cons]
      rw [hlen1, htake, List.map_cons, List.append_assoc, List.singleton_append,
        List.length_cons]
      exact pair_eq_of _ _ _ _ (by omega) rfl
    · rw [if_neg hlt]
      have hrec := foldl_gather_step_nodup port count l (n0 + 1) recs0 hlen
        (fun b hb => hdup b (List.mem_cons_of_mem a hb))
        ((List.pairwise_cons.mp hpw).2)
      rw [hrec]
      have hz : count - recs0.length = 0 := by omega
      rw [hz, List.take, List.take, List.map_nil, List.append_nil, List.length_cons]
      exact pair_eq_of _ _ _ _ (by omega) rfl

/-- Claim C10: the gathering loop never stores more than `count` records
in the caller's buffer; every record written lies at an index below the
capacity, whatever the returned total is. -/
theorem claim_C10 (env : IfaceEnv) (port count : Nat) (ifas : List Ifaddr)
    (res : Nat × List AddrRecord) (h : udp_get_addrs env port count ifas = some res) :
    res.2.length ≤ count := by
  unfold udp_get_addrs at h
  split at h
  · exact absurd h (by simp)
  · have : res = udp_get_addrs_core env port count ifas := by
      injection h with h'
      exact h'.symm
    subst this
    rw [udp_get_addrs_core_eq]
    exact foldl_gather_step_length_le port count _ _ (by simp)

/-- Witness for C10 at a concrete socket: port 5000, capacity 1, two
up, non-loopback IPv4 interfaces; the total is 2 but only one record is
stored. -/
theorem claim_C10_witness :
    udp_get_addrs ⟨fun _ => false, fun _ => false⟩ 5000 1
        [⟨true, false, some (.inet 0 [192, 168, 1, 5] [0, 0, 0, 0, 0, 0, 0, 0])⟩,
         ⟨true, false, some (.inet 0 [10, 0, 0, 2] [0, 0, 0, 0, 0, 0, 0, 0])⟩]
      = some (2, [⟨.inet 5000 [192, 168, 1, 5] [0, 0, 0, 0, 0, 0, 0, 0], 16⟩]) ∧
    ((2, [(⟨.inet 5000 [192, 168, 1, 5] [0, 0, 0, 0, 0, 0, 0, 0], 16⟩ : AddrRecord)]).2.length ≤ 1) :=
  ⟨by decide,
   claim_C10 ⟨fun _ => false, fun _ => false⟩ 5000 1
     [⟨true, false, some (.inet 0 [192, 168, 1, 5] [0, 0, 0, 0, 0, 0, 0, 0])⟩,
      ⟨true, false, some (.inet 0 [10, 0, 0, 2] [0, 0, 0, 0, 0, 0, 0, 0])⟩] _ (by decide)⟩

/-- Claim C1 (amended): when no eligible address duplicates the stored
record of an earlier one (`dup_pair` against the port-stamped record),
the total returned by `udp_get_addrs` equals the number of eligible
candidates for every capacity; the `capacity = 0` call writes nothing
and returns that total (positive when candidates exist), and a call with
capacity at least the total fully populates the buffer with the stamped
records and returns the same total.  (Without the no-duplicate
hypothesis the total depends on the capacity, because deduplication only
consults records that were actually stored; see the counterexample.) -/
theorem claim_C1 (env : IfaceEnv) (port : Nat) (ifas : List Ifaddr)
    (hport : port ≠ 0)
    (hpw : (eligible_list env ifas).Pairwise
      (fun a b => dup_pair (write_record port a) b = false)) :
    (udp_get_addrs env port 0 ifas = some ((eligible_list env ifas).length, [])) ∧
    (eligible_list env ifas ≠ [] → 0 < (eligible_list env ifas).length) ∧
    (∀ c, (eligible_list env ifas).length ≤ c →
      udp_get_addrs env port c ifas
        = some ((eligible_list env ifas).length,
            (eligible_list env ifas).map (write_record port))) ∧
    (∀ c, udp_get_addrs env port c ifas
        = some ((eligible_list env ifas).length,
            ((eligible_list env ifas).take c).map (write_record port))) := by
  have hgen : ∀ c, udp_get_addrs env port c ifas
      = some ((eligible_list env ifas).length,
          ((eligible_list env ifas).take c).map (write_record port)) := by
    intro c
    unfold udp_get_addrs
    rw [if_neg hport, udp_get_addrs_core_eq]
    rw [foldl_gather_step_nodup port c (eligible_list env ifas) 0 []
      (by simp) (by intro a _; simp [has_duplicate_addr]) hpw]
    simp
  refine ⟨?_, ?_, ?_, hgen⟩
  · rw [hgen 0]
    simp
  · intro hne
    exact List.length_pos.mpr hne
  · intro c hc
    rw [hgen c, List.take_of_length_le hc]

/-- Witness for C1: two up, non-loopback IPv6 interfaces on different
/64 prefixes; the capacity-0 call returns total 2 writing nothing, the
capacity-2 call returns 2 and stores both stamped records. -/
theorem claim_C1_witness :
    udp_get_addrs ⟨fun _ => false, fun _ => false⟩ 5000 0
        [⟨true, false, some (.inet6 0 0 [1, 2, 3, 4, 5, 6, 7, 8, 9, 0, 0, 0, 0, 0, 0, 0] 0)⟩,
         ⟨true, false, some (.inet6 0 0 [9, 9, 3, 4, 5, 6, 7, 8, 1, 0, 0, 0, 0, 0, 0, 0] 0)⟩]
      = some (2, []) ∧
    udp_get_addrs ⟨fun _ => false, fun _ => false⟩ 5000 2
        [⟨true, false, some (.inet6 0 0 [1, 2, 3, 4, 5, 6, 7, 8, 9, 0, 0, 0, 0, 0, 0, 0] 0)⟩,
         ⟨true, false, some (.inet6 0 0 [9, 9, 3, 4, 5, 6, 7, 8, 1, 0, 0, 0, 0, 0, 0, 0] 0)⟩]
      = some (2,
          [⟨.inet6 5000 0 [1, 2, 3, 4, 5, 6, 7, 8, 9, 0, 0, 0, 0, 0, 0, 0] 0, 28⟩,
           ⟨.inet6 5000 0 [9, 9, 3, 4, 5, 6, 7, 8, 1, 0, 0, 0, 0, 0, 0, 0] 0, 28⟩]) := by
  have h := claim_C1 ⟨fun _ => false, fun _ => false⟩ 5000
    [⟨true, false, some (.inet6 0 0 [1, 2, 3, 4, 5, 6, 7, 8, 9, 0, 0, 0, 0, 0, 0, 0] 0)⟩,
     ⟨true, false, some (.inet6 0 0 [9, 9, 3, 4, 5, 6, 7, 8, 1, 0, 0, 0, 0, 0, 0, 0] 0)⟩]
    (by decide) (by decide)
  exact ⟨h.1, h.2.2.1 2 (by decide)⟩

/-- Counterexample to C1 as stated: two up, non-loopback IPv6 interface
aliases on the same /64 prefix.  With capacity 0 nothing is stored, so
the dedup check (which only consults stored records) never fires and the
call returns total 2; the subsequent call with capacity 2 ≥ 2 returns
total 1 and stores a single record — not the same total, and the buffer
is not filled to the previously returned count. -/
theorem claim_C1_counterexample :
    udp_get_addrs ⟨fun _ => false, fun _ => false⟩ 5000 0
        [⟨true, false, some (.inet6 0 0 [1, 2, 3, 4, 5, 6, 7, 8, 9, 0, 0, 0, 0, 0, 0, 0] 0)⟩,
         ⟨true, false, some (.inet6 0 0 [1, 2, 3, 4, 5, 6, 7, 8, 10, 0, 0, 0, 0, 0, 0, 0] 0)⟩]
      = some (2, []) ∧
    udp_get_addrs ⟨fun _ => false, fun _ => false⟩ 5000 2
        [⟨true, false, some (.inet6 0 0 [1, 2, 3, 4, 5, 6, 7, 8, 9, 0, 0, 0, 0, 0, 0, 0] 0)⟩,
         ⟨true, false, some (.inet6 0 0 [1, 2, 3, 4, 5, 6, 7, 8, 10, 0, 0, 0, 0, 0, 0, 0] 0)⟩]
      = some (1, [⟨.inet6 5000 0 [1, 2, 3, 4, 5, 6, 7, 8, 9, 0, 0, 0, 0, 0, 0, 0] 0, 28⟩]) := by
  exact ⟨by decide, by decide⟩

/-! ## Deduplication invariants (C2) -/

/-- The leading 64 bits (8 bytes) of an IPv6 sockaddr's address, `none`
for other families. -/
def net64 : Sockaddr → Option (List Nat)
  | .inet6 _ _ a _ => some (a.take 8)
  | _ => none

/-- Is the sockaddr an `AF_INET` (`sockaddr_in`) value? -/
def is_inet : Sockaddr → Bool
  | .inet _ _ _ => true
  | _ => false

/-- Two records are compatible with the IPv6 dedup invariant when they
are not both IPv6 on the same /64 prefix. -/
def rel6 (r1 r2 : AddrRecord) : Bool :=
  match net64 r1.addr, net64 r2.addr with
  | some p1, some p2 => decide (p1 ≠ p2)
  | _, _ => true

/-- Two records are compatible with the IPv4 dedup invariant when they
are not both IPv4 with byte-for-byte equal sockaddrs. -/
def rel4 (r1 r2 : AddrRecord) : Bool :=
  if is_inet r1.addr && is_inet r2.addr then decide (r1.addr ≠ r2.addr) else true

/-- The port field an interface reports for its address already equals
the stamped port (so `addr_set_port` is the identity on it); vacuous for
non-IPv4 and missing addresses. -/
def stamp_ok (port : Nat) (ifa : Ifaddr) : Bool :=
  (ifa.addr.map fun sa => !is_inet sa || decide (addr_set_port port sa = sa)).getD true

lemma net64_set_port (port : Nat) (sa : Sockaddr) :
    net64 (addr_set_port port sa) = net64 sa := by
  cases sa <;> rfl

lemma rel6_of_not_dup (port : Nat) (r : AddrRecord) (sa : Sockaddr)
    (hd : dup_pair r sa = false) : rel6 r (write_record port sa) = true := by
  unfold rel6 write_record
  rw [net64_set_port]
  cases hr : net64 r.addr with
  | none => rfl
  | some p1 =>
    cases hs : net64 sa with
    | none => rfl
    | some p2 =>
      simp only [decide_eq_true_eq]
      intro hpp
      rcases r with ⟨ra, rlen⟩
      cases ra <;> simp [net64] at hr
      cases sa <;> simp [net64] at hs
      subst hr
      subst hs
      simp [dup_pair, Sockaddr.family] at hd
      exact hd hpp.symm

lemma rel4_of_not_dup (port : Nat) (r : AddrRecord) (sa : Sockaddr)
    (hd : dup_pair r sa = false) (hstamp : is_inet sa = true → addr_set_port port sa = sa) :
    rel4 r (write_record port sa) = true := by
  cases sa with
  | inet p a z =>
    have hid : addr_set_port port (.inet p a z) = .inet p a z := hstamp rfl
    unfold rel4 write_record
    rw [hid]
    cases hr : is_inet r.addr with
    | false => simp
    | true =>
      simp only [Bool.true_and, is_inet, if_pos, decide_eq_true_eq]
      rcases r with ⟨ra, rlen⟩
      cases ra <;> simp [is_inet] at hr ⊢
      intro h1 h2 h3
      subst h1; subst h2; subst h3
      simp [dup_pair, Sockaddr.family] at hd
  | inet6 p fl a sc =>
    unfold rel4 write_record addr_set_port
    simp [is_inet]
  | other f =>
    unfold rel4 write_record addr_set_port
    simp [is_inet]

/-- An incoming sockaddr byte-for-byte equal to a stored record of the
same constructor is always reported as a duplicate. -/
lemma dup_pair_self (r : AddrRecord) (sa : Sockaddr) (heq : r.addr = sa)
    (hinet : is_inet sa = true) : dup_pair r sa = true := by
  rcases r with ⟨ra, rlen⟩
  dsimp at heq
  subst heq
  cases ra <;> simp [is_inet] at hinet ⊢
  simp [dup_pair, Sockaddr.family]

/-- Pairwise record invariants are preserved by the gathering loop: any
relation implied by a failing duplicate check holds between every stored
record and every record stored after it. -/
lemma foldl_gather_step_inv (port count : Nat) (R : AddrRecord → AddrRecord → Bool) :
    ∀ (l : List Sockaddr) (st : Nat × List AddrRecord),
      (∀ (r : AddrRecord) (sa : Sockaddr), sa ∈ l → dup_pair r sa = false →
        R r (write_record port sa) = true) →
      st.2.Pairwise (fun a b => R a b = true) →
      ((l.foldl (gather_step port count) st).2.Pairwise (fun a b => R a b = true))
  | [], _, _, hst => hst
  | sa :: l, st, hprop, hst => by
    rw [List.foldl_cons]
    refine foldl_gather_step_inv port count R l _
      (fun r b hb hd => hprop r b (List.mem_cons_of_mem sa hb) hd) ?_
    cases hdup : has_duplicate_addr sa st.2 with
    | true => simpa [gather_step, hdup] using hst
    | false =>
      by_cases hlt : st.2.length < count
      · have hsnd : (gather_step port count st sa).2 = st.2 ++ [write_record port sa] := by
          simp [gather_step, hdup, hlt]
        rw [hsnd, List.pairwise_append]
        refine ⟨hst, List.pairwise_singleton _ _, ?_⟩
        intro r hr b hb
        have hb' : b = write_record port sa := by simpa using hb
        subst hb'
        exact hprop r sa (List.mem_cons_self sa l)
          ((has_duplicate_addr_false_iff sa st.2).mp hdup r hr)
      · have hsnd : (gather_step port count st sa).2 = st.2 := by
          simp [gather_step, hdup, hlt]
        rw [hsnd]
        exact hst

lemma eligible_some_addr (env : IfaceEnv) (hT : Bool) (ifa : Ifaddr) (sa : Sockaddr)
    (h : eligible env hT ifa = some sa) : ifa.addr = some sa := by
  rcases ifa with ⟨up, lo, oaddr⟩
  cases oaddr with
  | none =>
    unfold eligible at h
    split at h
    · exact absurd h (by simp)
    · exact absurd h (by simp)
  | some sb =>
    show some sb = some sa
    unfold eligible at h
    split at h
    · exact absurd h (by simp)
    · dsimp only at h
      split at h
      · exact h
      · exact absurd h (by simp)

/-- Claim C2 (amended): among the records emitted by `udp_get_addrs`,
any two IPv6 records differ in their leading 64 bits; an incoming
sockaddr byte-for-byte equal to an already-accepted record is rejected
as a duplicate; and any two emitted IPv4 records differ byte-for-byte
*provided* every IPv4 interface address already carries the bound port —
because the stored record's port is rewritten to the bound port after
the duplicate check, an incoming IPv4 address equal to an accepted one
except in the port bytes is not rejected (see the counterexample). -/
theorem claim_C2 (env : IfaceEnv) (port count : Nat) (ifas : List Ifaddr)
    (res : Nat × List AddrRecord) (h : udp_get_addrs env port count ifas = some res) :
    res.2.Pairwise (fun r1 r2 => rel6 r1 r2 = true) ∧
    (ifas.all (stamp_ok port) = true →
      res.2.Pairwise (fun r1 r2 => rel4 r1 r2 = true)) ∧
    (∀ (records : List AddrRecord) (r : AddrRecord) (sa : Sockaddr),
      r ∈ records → r.addr = sa → is_inet sa = true →
      has_duplicate_addr sa records = true) := by
  have hres : res = (eligible_list env ifas).foldl (gather_step port count) (0, []) := by
    unfold udp_get_addrs at h
    split at h
    · exact absurd h (by simp)
    · rw [udp_get_addrs_core_eq] at h
      exact (Option.some.inj h).symm
  refine ⟨?_, ?_, ?_⟩
  · rw [hres]
    exact foldl_gather_step_inv port count rel6 (eligible_list env ifas) (0, [])
      (fun r sa _ hd => rel6_of_not_dup port r sa hd) (List.Pairwise.nil)
  · intro hall
    rw [hres]
    refine foldl_gather_step_inv port count rel4 (eligible_list env ifas) (0, [])
      (fun r sa hmem hd => rel4_of_not_dup port r sa hd ?_) (List.Pairwise.nil)
    intro hinet
    rcases List.mem_filterMap.mp hmem with ⟨ifa, hifa, helig⟩
    have haddr := eligible_some_addr env _ ifa sa helig
    have hok := List.all_eq_true.mp hall ifa hifa
    unfold stamp_ok at hok
    rw [haddr] at hok
    simp [hinet] at hok
    exact hok
  · intro records r sa hr heq hinet
    rw [has_duplicate_addr, List.any_eq_true]
    exact ⟨r, hr, dup_pair_self r sa heq hinet⟩

/-- Witness for C2: a run over two distinct-port-stamped IPv4 interfaces
and two IPv6 interfaces on different /64 prefixes satisfies both dedup
invariants, and an incoming copy of a stored record is rejected. -/
theorem claim_C2_witness :
    ([⟨.inet6 5000 0 [1, 2, 3, 4, 5, 6, 7, 8, 9, 0, 0, 0, 0, 0, 0, 0] 0, 28⟩,
      ⟨.inet 5000 [192, 168, 1, 5] [0, 0, 0, 0, 0, 0, 0, 0], 16⟩,
      ⟨.inet 5000 [10, 0, 0, 2] [0, 0, 0, 0, 0, 0, 0, 0], 16⟩] :
        List AddrRecord).Pairwise (fun r1 r2 => rel6 r1 r2 = true) ∧
    ([⟨.inet6 5000 0 [1, 2, 3, 4, 5, 6, 7, 8, 9, 0, 0, 0, 0, 0, 0, 0] 0, 28⟩,
      ⟨.inet 5000 [192, 168, 1, 5] [0, 0, 0, 0, 0, 0, 0, 0], 16⟩,
      ⟨.inet 5000 [10, 0, 0, 2] [0, 0, 0, 0, 0, 0, 0, 0], 16⟩] :
        List AddrRecord).Pairwise (fun r1 r2 => rel4 r1 r2 = true) ∧
    has_duplicate_addr (.inet 5000 [192, 168, 1, 5] [0, 0, 0, 0, 0, 0, 0, 0])
      [⟨.inet 5000 [192, 168, 1, 5] [0, 0, 0, 0, 0, 0, 0, 0], 16⟩] = true := by
  have h := claim_C2 ⟨fun _ => false, fun _ => false⟩ 5000 3
    [⟨true, false, some (.inet6 5000 0 [1, 2, 3, 4, 5, 6, 7, 8, 9, 0, 0, 0, 0, 0, 0, 0] 0)⟩,
     ⟨true, false, some (.inet 5000 [192, 168, 1, 5] [0, 0, 0, 0, 0, 0, 0, 0])⟩,
     ⟨true, false, some (.inet 5000 [10, 0, 0, 2] [0, 0, 0, 0, 0, 0, 0, 0])⟩]
    (3, [⟨.inet6 5000 0 [1, 2, 3, 4, 5, 6, 7, 8, 9, 0, 0, 0, 0, 0, 0, 0] 0, 28⟩,
         ⟨.inet 5000 [192, 168, 1, 5] [0, 0, 0, 0, 0, 0, 0, 0], 16⟩,
         ⟨.inet 5000 [10, 0, 0, 2] [0, 0, 0, 0, 0, 0, 0, 0], 16⟩])
    (by decide)
  exact ⟨h.1, h.2.1 (by decide),
    h.2.2 [⟨.inet 5000 [192, 168, 1, 5] [0, 0, 0, 0, 0, 0, 0, 0], 16⟩]
      ⟨.inet 5000 [192, 168, 1, 5] [0, 0, 0, 0, 0, 0, 0, 0], 16⟩
      (.inet 5000 [192, 168, 1, 5] [0, 0, 0, 0, 0, 0, 0, 0])
      (List.mem_singleton.mpr rfl) rfl rfl⟩

/-- Counterexample to C2 as stated: the same IPv4 interface address
(port field 0, as `getifaddrs` reports it) listed twice.  The stored
copy gets the bound port 5000 stamped into it, so the second incoming
copy no longer `memcmp`-matches it and is accepted: two byte-for-byte
identical IPv4 records are emitted. -/
theorem claim_C2_counterexample :
    udp_get_addrs ⟨fun _ => false, fun _ => false⟩ 5000 2
        [⟨true, false, some (.inet 0 [192, 168, 1, 5] [0, 0, 0, 0, 0, 0, 0, 0])⟩,
         ⟨true, false, some (.inet 0 [192, 168, 1, 5] [0, 0, 0, 0, 0, 0, 0, 0])⟩]
      = some (2, [⟨.inet 5000 [192, 168, 1, 5] [0, 0, 0, 0, 0, 0, 0, 0], 16⟩,
                  ⟨.inet 5000 [192, 168, 1, 5] [0, 0, 0, 0, 0, 0, 0, 0], 16⟩]) ∧
    ¬ (([⟨.inet 5000 [192, 168, 1, 5] [0, 0, 0, 0, 0, 0, 0, 0], 16⟩,
         ⟨.inet 5000 [192, 168, 1, 5] [0, 0, 0, 0, 0, 0, 0, 0], 16⟩] :
          List AddrRecord).Pairwise (fun r1 r2 => rel4 r1 r2 = true)) :=
  ⟨by decide, by decide⟩

/-! ## IPv6 privacy invariant (C4) -/

/-- Every IPv6 record in the list is a temporary (privacy) address. -/
def all_inet6_temp (env : IfaceEnv) (recs : List AddrRecord) : Bool :=
  recs.all fun r =>
    match r.addr with
    | .inet6 _ _ a _ => env.isTemp6 a
    | _ => true

lemma udp_get_addrs_some (env : IfaceEnv) (port count : Nat) (ifas : List Ifaddr)
    (res : Nat × List AddrRecord) (h : udp_get_addrs env port count ifas = some res) :
    res = (eligible_list env ifas).foldl (gather_step port count) (0, []) := by
  unfold udp_get_addrs at h
  split at h
  · exact absurd h (by simp)
  · rw [udp_get_addrs_core_eq] at h
    exact (Option.some.inj h).symm

/-- A list-wide `all` fact is preserved by the gathering loop when every
address that may be accepted yields a record satisfying it. -/
lemma foldl_gather_step_all (port count : Nat) (p : AddrRecord → Bool) :
    ∀ (l : List Sockaddr) (st : Nat × List AddrRecord),
      (∀ sa ∈ l, p (write_record port sa) = true) →
      st.2.all p = true →
      ((l.foldl (gather_step port count) st).2.all p = true)
  | [], _, _, hst => hst
  | sa :: l, st, hl, hst => by
    rw [List.foldl_cons]
    refine foldl_gather_step_all port count p l _
      (fun b hb => hl b (List.mem_cons_of_mem sa hb)) ?_
    cases hdup : has_duplicate_addr sa st.2 with
    | true => simpa [gather_step, hdup] using hst
    | false =>
      by_cases hlt : st.2.length < count
      · have hsnd : (gather_step port count st sa).2 = st.2 ++ [write_record port sa] := by
          simp [gather_step, hdup, hlt]
        rw [hsnd, List.all_append]
        simp [hst, hl sa (List.mem_cons_self sa l)]
      · have hsnd : (gather_step port count st sa).2 = st.2 := by
          simp [gather_step, hdup, hlt]
        rw [hsnd]
        exact hst

/-- When the privacy flag is set, the filter only lets an IPv6 address
through if it is itself temporary. -/
lemma eligible_inet6_temp (env : IfaceEnv) (ifa : Ifaddr) (p fl : Nat) (a : List Nat)
    (sc : Nat) (h : eligible env true ifa = some (.inet6 p fl a sc)) :
    env.isTemp6 a = true := by
  rcases ifa with ⟨up, lo, oaddr⟩
  cases oaddr with
  | none =>
    unfold eligible at h
    split at h
    · exact absurd h (by simp)
    · exact absurd h (by simp)
  | some sb =>
    unfold eligible at h
    split at h
    · exact absurd h (by simp)
    · dsimp only at h
      split at h
      · rename_i hcond
        have hsb := Option.some.inj h
        subst hsb
        simp [Sockaddr.family, addr_is_temp_inet6, addr_get_len] at hcond
        exact hcond.2
      · exact absurd h (by simp)

/-- Claim C4: in any run of `udp_get_addrs`, if some address of the
candidate interface set (up, non-loopback interfaces) is a temporary
IPv6 address — determined by the first pass over the entire set, before
the per-address filtering — then every IPv6 record emitted into the
output is itself temporary: no permanent IPv6 address is emitted at all. -/
theorem claim_C4 (env : IfaceEnv) (port count : Nat) (ifas : List Ifaddr)
    (res : Nat × List AddrRecord)
    (h : udp_get_addrs env port count ifas = some res)
    (htemp : scan_has_temp_inet6 env ifas = true) :
    all_inet6_temp env res.2 = true := by
  rw [udp_get_addrs_some env port count ifas res h]
  unfold all_inet6_temp eligible_list
  rw [htemp]
  refine foldl_gather_step_all port count _ _ _ ?_ rfl
  intro sa hmem
  rcases List.mem_filterMap.mp hmem with ⟨ifa, _, helig⟩
  cases sa with
  | inet p a z => simp [write_record, addr_set_port]
  | inet6 p fl a sc =>
    simp only [write_record, addr_set_port]
    exact eligible_inet6_temp env ifa p fl a sc helig
  | other f => simp [write_record, addr_set_port]

/-- Witness for C4: an interface set holding one temporary IPv6 address
(prefix byte 0xFD under this `isTemp6`), one permanent IPv6 address and
one IPv4 address; the emitted records carry only the temporary IPv6
(plus IPv4), and all emitted IPv6 records are temporary. -/
theorem claim_C4_witness :
    udp_get_addrs ⟨fun _ => false, fun bs => decide (bs.headD 0 = 253)⟩ 5000 5
        [⟨true, false, some (.inet6 0 0 [32, 2, 3, 4, 5, 6, 7, 8, 9, 0, 0, 0, 0, 0, 0, 0] 0)⟩,
         ⟨true, false, some (.inet6 0 0 [253, 2, 3, 4, 5, 6, 7, 8, 9, 0, 0, 0, 0, 0, 0, 0] 0)⟩,
         ⟨true, false, some (.inet 0 [192, 168, 1, 5] [0, 0, 0, 0, 0, 0, 0, 0])⟩]
      = some (2, [⟨.inet6 5000 0 [253, 2, 3, 4, 5, 6, 7, 8, 9, 0, 0, 0, 0, 0, 0, 0] 0, 28⟩,
                  ⟨.inet 5000 [192, 168, 1, 5] [0, 0, 0, 0, 0, 0, 0, 0], 16⟩]) ∧
    scan_has_temp_inet6 ⟨fun _ => false, fun bs => decide (bs.headD 0 = 253)⟩
        [⟨true, false, some (.inet6 0 0 [32, 2, 3, 4, 5, 6, 7, 8, 9, 0, 0, 0, 0, 0, 0, 0] 0)⟩,
         ⟨true, false, some (.inet6 0 0 [253, 2, 3, 4, 5, 6, 7, 8, 9, 0, 0, 0, 0, 0, 0, 0] 0)⟩,
         ⟨true, false, some (.inet 0 [192, 168, 1, 5] [0, 0, 0, 0, 0, 0, 0, 0])⟩] = true ∧
    all_inet6_temp ⟨fun _ => false, fun bs => decide (bs.headD 0 = 253)⟩
        [⟨.inet6 5000 0 [253, 2, 3, 4, 5, 6, 7, 8, 9, 0, 0, 0, 0, 0, 0, 0] 0, 28⟩,
         ⟨.inet 5000 [192, 168, 1, 5] [0, 0, 0, 0, 0, 0, 0, 0], 16⟩] = true :=
  ⟨by decide, by decide,
   claim_C4 ⟨fun _ => false, fun bs => decide (bs.headD 0 = 253)⟩ 5000 5
     [⟨true, false, some (.inet6 0 0 [32, 2, 3, 4, 5, 6, 7, 8, 9, 0, 0, 0, 0, 0, 0, 0] 0)⟩,
      ⟨true, false, some (.inet6 0 0 [253, 2, 3, 4, 5, 6, 7, 8, 9, 0, 0, 0, 0, 0, 0, 0] 0)⟩,
      ⟨true, false, some (.inet 0 [192, 168, 1, 5] [0, 0, 0, 0, 0, 0, 0, 0])⟩]
     (2, [⟨.inet6 5000 0 [253, 2, 3, 4, 5, 6, 7, 8, 9, 0, 0, 0, 0, 0, 0, 0] 0, 28⟩,
          ⟨.inet 5000 [192, 168, 1, 5] [0, 0, 0, 0, 0, 0, 0, 0], 16⟩])
     (by decide) (by decide)⟩

/-! ## Port allocator and bind loop lemmas -/

lemma get_next_port_in_range_eq (b e s c : Nat) (hb : b ≠ 0) (he : e ≠ 0)
    (hbe : b ≤ e) (he16 : e < 65536) :
    (get_next_port_in_range b e s c).1 = b + ((if c = 0 then s else c) % (e - b + 1)) ∧
    b ≤ (get_next_port_in_range b e s c).1 ∧ (get_next_port_in_range b e s c).1 ≤ e := by
  have hmod : (if c = 0 then s else c) % (e - b + 1) ≤ e - b := by
    have := Nat.mod_lt (if c = 0 then s else c) (y := e - b + 1) (Nat.succ_pos _)
    omega
  have hdiff : (if b < e then e - b else 0) + 1 = e - b + 1 := by
    split <;> omega
  simp only [get_next_port_in_range, if_neg hb, if_neg he]
  rw [hdiff, Nat.mod_eq_of_lt (by omega)]
  exact ⟨rfl, by omega, by omega⟩

lemma bind_loop_zero (os : OSEnv) (b e i count : Nat) :
    bind_loop os b e 0 i count
      = match os.bindAt i with
        | .ok => (some (get_next_port_in_range b e os.rand32 count).1, 1,
            (get_next_port_in_range b e os.rand32 count).2)
        | .addrinuse => (none, 1, (get_next_port_in_range b e os.rand32 count).2)
        | .otherr => (none, 1, (get_next_port_in_range b e os.rand32 count).2) := rfl

lemma bind_loop_succ (os : OSEnv) (b e fuel i count : Nat) :
    bind_loop os b e (fuel + 1) i count
      = match os.bindAt i with
        | .ok => (some (get_next_port_in_range b e os.rand32 count).1, 1,
            (get_next_port_in_range b e os.rand32 count).2)
        | .addrinuse =>
          ((bind_loop os b e fuel (i + 1) (get_next_port_in_range b e os.rand32 count).2).1,
           (bind_loop os b e fuel (i + 1) (get_next_port_in_range b e os.rand32 count).2).2.1 + 1,
           (bind_loop os b e fuel (i + 1) (get_next_port_in_range b e os.rand32 count).2).2.2)
        | .otherr => (none, 1, (get_next_port_in_range b e os.rand32 count).2) := rfl

lemma bind_loop_all_inuse (os : OSEnv) (b e : Nat)
    (hall : ∀ i, os.bindAt i = .addrinuse) :
    ∀ (fuel i count : Nat),
      (bind_loop os b e fuel i count).1 = none ∧
      (bind_loop os b e fuel i count).2.1 = fuel + 1
  | 0, i, count => by
    rw [bind_loop_zero, hall i]
    exact ⟨rfl, rfl⟩
  | fuel + 1, i, count => by
    have ih := bind_loop_all_inuse os b e hall fuel (i + 1)
      (get_next_port_in_range b e os.rand32 count).2
    rw [bind_loop_succ, hall i]
    refine ⟨ih.1, ?_⟩
    show (bind_loop os b e fuel (i + 1)
        (get_next_port_in_range b e os.rand32 count).2).2.1 + 1 = fuel + 1 + 1
    rw [ih.2]

lemma bind_loop_abort (os : OSEnv) (b e : Nat) :
    ∀ (k fuel i count : Nat), (∀ m, m < k → os.bindAt (i + m) = .addrinuse) →
      os.bindAt (i + k) = .otherr → k ≤ fuel →
      (bind_loop os b e fuel i count).1 = none ∧
      (bind_loop os b e fuel i count).2.1 = k + 1
  | 0, fuel, i, count, _, hk, _ => by
    rw [Nat.add_zero] at hk
    cases fuel with
    | zero =>
      rw [bind_loop_zero, hk]
      exact ⟨rfl, rfl⟩
    | succ fuel' =>
      rw [bind_loop_succ, hk]
      exact ⟨rfl, rfl⟩
  | k + 1, fuel, i, count, hpre, hk, hle => by
    have h0 : os.bindAt i = .addrinuse := by
      have := hpre 0 (Nat.succ_pos k)
      simpa using this
    obtain ⟨fuel', rfl⟩ : ∃ f, fuel = f + 1 := ⟨fuel - 1, by omega⟩
    have ih := bind_loop_abort os b e k fuel' (i + 1)
      (get_next_port_in_range b e os.rand32 count).2
      (fun m hm => by
        have := hpre (m + 1) (by omega)
        rw [show i + 1 + m = i + (m + 1) by omega]
        exact this)
      (by rw [show i + 1 + k = i + (k + 1) by omega]; exact hk)
      (by omega)
    rw [bind_loop_succ, h0]
    refine ⟨ih.1, ?_⟩
    show (bind_loop os b e fuel' (i + 1)
        (get_next_port_in_range b e os.rand32 count).2).2.1 + 1 = k + 1 + 1
    rw [ih.2]

lemma bind_loop_success_range (os : OSEnv) (b e : Nat) (hb : b ≠ 0) (he : e ≠ 0)
    (hbe : b ≤ e) (he16 : e < 65536) :
    ∀ (fuel i count p : Nat), (bind_loop os b e fuel i count).1 = some p →
      b ≤ p ∧ p ≤ e
  | 0, i, count, p => by
    intro h
    rw [bind_loop_zero] at h
    cases hb0 : os.bindAt i with
    | ok =>
      rw [hb0] at h
      have h' : some (get_next_port_in_range b e os.rand32 count).1 = some p := h
      have hr := get_next_port_in_range_eq b e os.rand32 count hb he hbe he16
      rw [← Option.some.inj h']
      exact hr.2
    | addrinuse =>
      rw [hb0] at h
      exact absurd (show (none : Option Nat) = some p from h) (by simp)
    | otherr =>
      rw [hb0] at h
      exact absurd (show (none : Option Nat) = some p from h) (by simp)
  | fuel + 1, i, count, p => by
    intro h
    rw [bind_loop_succ] at h
    cases hb0 : os.bindAt i with
    | ok =>
      rw [hb0] at h
      have h' : some (get_next_port_in_range b e os.rand32 count).1 = some p := h
      have hr := get_next_port_in_range_eq b e os.rand32 count hb he hbe he16
      rw [← Option.some.inj h']
      exact hr.2
    | addrinuse =>
      rw [hb0] at h
      exact bind_loop_success_range os b e hb he hbe he16 fuel (i + 1)
        (get_next_port_in_range b e os.rand32 count).2 p h
    | otherr =>
      rw [hb0] at h
      exact absurd (show (none : Option Nat) = some p from h) (by simp)

/-- Reduction of `udp_create_socket` to the ranged bind loop when all the
earlier syscalls succeed and the range is explicit. -/
lemma udp_create_socket_range (os : OSEnv) (b e count0 : Nat)
    (hgai : os.gai_ok = true)
    (hfam : (find_family os.families 10 || find_family os.families 2) = true)
    (hsock : os.socket_ok = true) (hio : os.ioctl_ok = true)
    (hnz : ¬(b = 0 ∧ e = 0)) :
    udp_create_socket os ⟨b, e⟩ count0
      = (match (bind_loop os b e ((e : Int) - (b : Int)).toNat 0 count0).1 with
         | some p =>
           (⟨true, some p, true, true, false,
             (bind_loop os b e ((e : Int) - (b : Int)).toNat 0 count0).2.1⟩,
            (bind_loop os b e ((e : Int) - (b : Int)).toNat 0 count0).2.2)
         | none =>
           (⟨false, none, true, true, false,
             (bind_loop os b e ((e : Int) - (b : Int)).toNat 0 count0).2.1⟩,
            (bind_loop os b e ((e : Int) - (b : Int)).toNat 0 count0).2.2)) := by
  have hnz' : (decide (b = 0) && decide (e = 0)) = false := by
    by_cases h1 : b = 0
    · by_cases h2 : e = 0
      · exact absurd ⟨h1, h2⟩ hnz
      · simp [h1, h2]
    · simp [h1]
  simp only [udp_create_socket, hgai, hfam, hsock, hio, hnz', Bool.not_true,
    Bool.false_eq_true, if_false]

/-- Claim C3 — evaluation of the model at the spec's failing inputs.
When setting non-blocking mode fails (first conjunct), and when binding
exhausts an explicit range (second conjunct), `udp_create_socket`
returns the error after freeing the resolved address list, but the
already-created socket is never closed (`sockClosed = false`; the code
has no `closesocket` on its error path), contradicting the claim that
every acquired OS resource is released. -/
theorem claim_C3 :
    (udp_create_socket ⟨true, [10, 2], true, false, .ok, fun _ => .ok, 7⟩ ⟨0, 0⟩ 1).1
      = ⟨false, none, true, true, false, 0⟩ ∧
    (udp_create_socket ⟨true, [10], true, true, .ok, fun _ => .addrinuse, 7⟩ ⟨5000, 5001⟩ 1).1
      = ⟨false, none, true, true, false, 2⟩ :=
  ⟨by decide, by decide⟩

/-- Claim C5: with an explicit non-degenerate range `[b, e]` (`b ≤ e`,
not both zero) and every earlier syscall succeeding, if every bind
attempt fails with address-in-use then `udp_create_socket` fails after
exactly `e - b + 1` bind attempts; and if some attempt `j` within the
range fails with any other OS error after `j` address-in-use failures,
it aborts immediately after that attempt (`j + 1` attempts in total). -/
theorem claim_C5 (os : OSEnv) (b e count0 : Nat)
    (hbe : b ≤ e) (hnz : ¬(b = 0 ∧ e = 0))
    (hgai : os.gai_ok = true)
    (hfam : (find_family os.families 10 || find_family os.families 2) = true)
    (hsock : os.socket_ok = true) (hio : os.ioctl_ok = true) :
    ((∀ i, os.bindAt i = .addrinuse) →
      (udp_create_socket os ⟨b, e⟩ count0).1.sock = false ∧
      (udp_create_socket os ⟨b, e⟩ count0).1.attempts = e - b + 1) ∧
    (∀ j, j ≤ e - b → os.bindAt j = .otherr → (∀ m, m < j → os.bindAt m = .addrinuse) →
      (udp_create_socket os ⟨b, e⟩ count0).1.sock = false ∧
      (udp_create_socket os ⟨b, e⟩ count0).1.attempts = j + 1) := by
  have hfuel : ((e : Int) - (b : Int)).toNat = e - b := by omega
  rw [udp_create_socket_range os b e count0 hgai hfam hsock hio hnz, hfuel]
  constructor
  · intro hall
    have h5 := bind_loop_all_inuse os b e hall (e - b) 0 count0
    rw [h5.1]
    refine ⟨rfl, ?_⟩
    show (bind_loop os b e (e - b) 0 count0).2.1 = e - b + 1
    exact h5.2
  · intro j hj hother hpre
    have h6 := bind_loop_abort os b e j (e - b) 0 count0
      (fun m hm => by simpa using hpre m hm) (by simpa using hother) hj
    rw [h6.1]
    refine ⟨rfl, ?_⟩
    show (bind_loop os b e (e - b) 0 count0).2.1 = j + 1
    exact h6.2

/-- Witness for C5: range `[5000, 5002]` with every port occupied; the
socket creation fails after exactly 3 = 5002 - 5000 + 1 attempts. -/
theorem claim_C5_witness :
    (udp_create_socket ⟨true, [10], true, true, .ok, fun _ => .addrinuse, 7⟩
        ⟨5000, 5002⟩ 1).1.sock = false ∧
    (udp_create_socket ⟨true, [10], true, true, .ok, fun _ => .addrinuse, 7⟩
        ⟨5000, 5002⟩ 1).1.attempts = 3 :=
  (claim_C5 ⟨true, [10], true, true, .ok, fun _ => .addrinuse, 7⟩ 5000 5002 1
    (by decide) (by decide) rfl (by decide) rfl rfl).1 (fun i => rfl)

/-- Claim C6: for a non-degenerate explicit range `[b, e]` with `b ≠ 0`,
`e ≠ 0`, `b ≤ e` (16-bit ports), every port the allocator produces
equals `begin + (counter mod (end - begin + 1))` — with the counter
seeded when its stored value is 0 — and lies in `[b, e]`; consequently,
whenever `udp_create_socket` succeeds on that range, the port of the
successful bind lies in `[b, e]`. -/
theorem claim_C6 (b e : Nat) (hb : b ≠ 0) (he : e ≠ 0) (hbe : b ≤ e) (he16 : e < 65536) :
    (∀ s c, (get_next_port_in_range b e s c).1
        = b + ((if c = 0 then s else c) % (e - b + 1)) ∧
      b ≤ (get_next_port_in_range b e s c).1 ∧
      (get_next_port_in_range b e s c).1 ≤ e) ∧
    (∀ (os : OSEnv) (count0 p : Nat),
      (udp_create_socket os ⟨b, e⟩ count0).1.sock = true →
      (udp_create_socket os ⟨b, e⟩ count0).1.boundPort = some p →
      b ≤ p ∧ p ≤ e) := by
  constructor
  · intro s c
    exact get_next_port_in_range_eq b e s c hb he hbe he16
  · intro os count0 p hsock hport
    cases hg : os.gai_ok with
    | false => simp [udp_create_socket, hg] at hsock
    | true =>
      cases hf : (find_family os.families 10 || find_family os.families 2) with
      | false => simp [udp_create_socket, hg, hf] at hsock
      | true =>
        cases hs : os.socket_ok with
        | false => simp [udp_create_socket, hg, hf, hs] at hsock
        | true =>
          cases hi : os.ioctl_ok with
          | false => simp [udp_create_socket, hg, hf, hs, hi] at hsock
          | true =>
            rw [udp_create_socket_range os b e count0 hg hf hs hi
              (fun hc => hb hc.1)] at hsock hport
            cases hr : (bind_loop os b e ((e : Int) - (b : Int)).toNat 0 count0).1 with
            | none => rw [hr] at hsock; exact absurd hsock (by simp)
            | some q =>
              rw [hr] at hport
              have hq : q = p := by
                dsimp only at hport
                exact Option.some.inj hport
              subst hq
              exact bind_loop_success_range os b e hb he hbe he16 _ 0 count0 q hr

/-- Witness for C6: range `[5000, 5002]`, counter state 1, first two
ports occupied; the socket binds successfully and the reported port 5000
lies in the range, and the allocator formula holds at a sample state. -/
theorem claim_C6_witness :
    (get_next_port_in_range 5000 5002 7 4).1 = 5000 + 4 % 3 ∧
    (udp_create_socket ⟨true, [10], true, true, .ok,
        fun i => if i < 2 then .addrinuse else .ok, 7⟩ ⟨5000, 5002⟩ 1).1.sock = true ∧
    (udp_create_socket ⟨true, [10], true, true, .ok,
        fun i => if i < 2 then .addrinuse else .ok, 7⟩ ⟨5000, 5002⟩ 1).1.boundPort
      = some 5000 ∧
    5000 ≤ 5000 ∧ 5000 ≤ 5002 :=
  ⟨((claim_C6 5000 5002 (by decide) (by decide) (by decide) (by decide)).1 7 4).1,
   by decide, by decide,
   ((claim_C6 5000 5002 (by decide) (by decide) (by decide) (by decide)).2
     ⟨true, [10], true, true, .ok, fun i => if i < 2 then .addrinuse else .ok, 7⟩
     1 5000 (by decide) (by decide)).1,
   ((claim_C6 5000 5002 (by decide) (by decide) (by decide) (by decide)).2
     ⟨true, [10], true, true, .ok, fun i => if i < 2 then .addrinuse else .ok, 7⟩
     1 5000 (by decide) (by decide)).2⟩

/-- Claim C7 (amended): a call that observes a non-zero counter state
does not consult the random source at all (it advances the counter by
exactly one modulo 2^32), while a call observing counter state 0 — the
first call ever, but also any call after the 32-bit counter wraps back
to 0 — seeds the counter from the 32-bit random value. -/
theorem claim_C7 (b e s c : Nat) :
    (c ≠ 0 → ∀ s2, get_next_port_in_range b e s c = get_next_port_in_range b e s2 c) ∧
    (get_next_port_in_range b e s c).2 = ((if c = 0 then s else c) + 1) % 4294967296 := by
  constructor
  · intro hc s2
    simp [get_next_port_in_range, hc]
  · rfl

/-- Witness for C7: at the non-zero counter state 5 the result is
independent of the random value, and the counter advances to 6. -/
theorem claim_C7_witness :
    get_next_port_in_range 1024 2048 7 5 = get_next_port_in_range 1024 2048 99 5 ∧
    (get_next_port_in_range 1024 2048 7 5).2 = 6 :=
  ⟨(claim_C7 1024 2048 7 5).1 (by decide) 99,
   by rw [(claim_C7 1024 2048 7 5).2]; decide⟩

/-- Counterexample to C7 as stated: the guard `if (count == 0)` re-seeds
at *any* call observing counter state 0, not only the first call ever.
The call at state 4294967295 (2^32 - 1) wraps the counter back to 0, and
the subsequent call then depends on the fresh random value again (it
returns different ports for random values 5 and 21) — a later call does
re-seed the counter. -/
theorem claim_C7_counterexample :
    (get_next_port_in_range 1024 2048 7 4294967295).2 = 0 ∧
    (get_next_port_in_range 1024 2048 5 0).1 ≠ (get_next_port_in_range 1024 2048 21 0).1 :=
  ⟨by decide, by decide⟩

/-! ## `udp_get_local_addr` (C8) and `juice_log_write` (C9) -/

/-- Claim C8: when the OS reports the bound address, `udp_get_local_addr`
succeeds and returns it with the address bytes rewritten to the loopback
equivalent of its family — `127.0.0.1` for IPv4, `::1` (fifteen zero
bytes then 1) for IPv6 — keeping the port and the family's native length;
when `getsockname` fails it returns the error. -/
theorem claim_C8 (sa : Sockaddr) :
    (∀ p a z, sa = .inet p a z →
      udp_get_local_addr (some sa) = some ⟨.inet p [127, 0, 0, 1] z, 16⟩) ∧
    (∀ p fl a sc, sa = .inet6 p fl a sc →
      udp_get_local_addr (some sa)
        = some ⟨.inet6 p fl (List.replicate 15 0 ++ [1]) sc, 28⟩) ∧
    udp_get_local_addr none = none := by
  refine ⟨?_, ?_, rfl⟩
  · intro p a z h
    subst h
    rfl
  · intro p fl a sc h
    subst h
    rfl

/-- Witness for C8: a socket bound to `10.0.0.7:1234` reports
`127.0.0.1:1234`, and an IPv6 socket reports `[::1]` with its port. -/
theorem claim_C8_witness :
    udp_get_local_addr (some (.inet 1234 [10, 0, 0, 7] [0, 0, 0, 0, 0, 0, 0, 0]))
      = some ⟨.inet 1234 [127, 0, 0, 1] [0, 0, 0, 0, 0, 0, 0, 0], 16⟩ ∧
    udp_get_local_addr
        (some (.inet6 1234 0 [1, 2, 3, 4, 5, 6, 7, 8, 9, 10, 11, 12, 13, 14, 15, 16] 3))
      = some ⟨.inet6 1234 0 (List.replicate 15 0 ++ [1]) 3, 28⟩ :=
  ⟨(claim_C8 (.inet 1234 [10, 0, 0, 7] [0, 0, 0, 0, 0, 0, 0, 0])).1
     1234 [10, 0, 0, 7] [0, 0, 0, 0, 0, 0, 0, 0] rfl,
   (claim_C8 (.inet6 1234 0 [1, 2, 3, 4, 5, 6, 7, 8, 9, 10, 11, 12, 13, 14, 15, 16] 3)).2.1
     1234 0 [1, 2, 3, 4, 5, 6, 7, 8, 9, 10, 11, 12, 13, 14, 15, 16] 3 rfl⟩

lemma callback_message_length (filename : List Char) (line : Nat) (msg : List Char) :
    (callback_message filename line msg).length ≤ BUFFER_SIZE - 1 := by
  simp only [callback_message]
  split
  · rename_i hlt
    rw [List.length_append, List.length_take]
    omega
  · rw [List.length_take]
    omega

/-- Claim C9 (amended): a message at or above the level filter with no
callback installed goes to the standard output stream, its text carrying
the `HH:MM:SS` timestamp and the *entire* formatted message — the
output is not truncated to the 4096-byte formatting buffer, which is
only used (and truncates to at most 4095 characters) on the callback
path.  The printed text is at least as long as the message. -/
theorem claim_C9 (st : LogState) (useColor : Bool) (ts : List Char) (level : Nat)
    (file : List Char) (line : Nat) (msg : List Char)
    (hcb : st.has_cb = false) (hlev : st.log_level ≤ level) :
    (∃ before after,
      juice_log_write st useColor ts level file line msg
        = .stdout (before ++ ts ++ [' '] ++ after ++ msg ++
            (if useColor then ['\x1B', '[', '0', 'm', '\x1B', '[', '0', 'K'] else []) ++
            ['\n'])) ∧
    msg.length ≤ (juice_log_write st useColor ts level file line msg).textLen ∧
    (∀ st2 : LogState, st2.has_cb = true → st2.log_level ≤ level →
      (juice_log_write st2 useColor ts level file line msg).textLen ≤ BUFFER_SIZE - 1) := by
  have hout : juice_log_write st useColor ts level file line msg
      = .stdout (stdout_text useColor ts level (log_filename file) line msg) := by
    unfold juice_log_write
    rw [if_neg (by omega), hcb]
    rfl
  refine ⟨?_, ?_, ?_⟩
  · refine ⟨(if useColor then log_level_colors.getD level [] else []), ?_, ?_⟩
    · exact pad7 (log_level_names.getD level []) ++ [' '] ++
        log_header (log_filename file) line
    · rw [hout]
      unfold stdout_text
      simp [List.append_assoc]
  · rw [hout]
    unfold LogOutput.textLen stdout_text
    simp only [List.length_append]
    omega
  · intro st2 hcb2 hlev2
    have hout2 : juice_log_write st2 useColor ts level file line msg
        = .callback level (callback_message (log_filename file) line msg) := by
      unfold juice_log_write
      rw [if_neg (by omega), hcb2]
      rfl
    rw [hout2]
    exact callback_message_length (log_filename file) line msg

/-- Witness for C9 at a concrete call: level ERROR (4) against filter
WARN (3), no callback, a 9-character message; the output goes to stdout
and is at least 9 characters long, and with a callback installed it
stays within the 4095-character budget. -/
theorem claim_C9_witness :
    (∃ before after,
      juice_log_write ⟨3, false⟩ false
          ['1', '2', ':', '3', '4', ':', '5', '6'] 4
          ['u', 'd', 'p', '.', 'c'] 99
          ['b', 'i', 'n', 'd', ' ', 'f', 'a', 'i', 'l']
        = .stdout (before ++ ['1', '2', ':', '3', '4', ':', '5', '6'] ++ [' '] ++ after ++
            ['b', 'i', 'n', 'd', ' ', 'f', 'a', 'i', 'l'] ++
            (if false then ['\x1B', '[', '0', 'm', '\x1B', '[', '0', 'K'] else []) ++
            ['\n'])) ∧
    (9 : Nat) ≤ (juice_log_write ⟨3, false⟩ false
        ['1', '2', ':', '3', '4', ':', '5', '6'] 4
        ['u', 'd', 'p', '.', 'c'] 99
        ['b', 'i', 'n', 'd', ' ', 'f', 'a', 'i', 'l']).textLen ∧
    (juice_log_write ⟨3, true⟩ false
        ['1', '2', ':', '3', '4', ':', '5', '6'] 4
        ['u', 'd', 'p', '.', 'c'] 99
        ['b', 'i', 'n', 'd', ' ', 'f', 'a', 'i', 'l']).textLen ≤ BUFFER_SIZE - 1 := by
  have h := claim_C9 ⟨3, false⟩ false ['1', '2', ':', '3', '4', ':', '5', '6'] 4
    ['u', 'd', 'p', '.', 'c'] 99 ['b', 'i', 'n', 'd', ' ', 'f', 'a', 'i', 'l']
    rfl (by decide)
  exact ⟨h.1, h.2.1, h.2.2 ⟨3, true⟩ rfl (by decide)⟩

/-- Counterexample to C9 as stated: with no callback installed, a
formatted message of 4200 characters is written to stdout in full — the
resulting text is 4228 characters, well past the 4096-byte formatting
buffer the claim says the output is truncated to.  (The no-callback path
prints with `vfprintf`, which imposes no length limit; the 4096-byte
buffer only serves the callback path.) -/
theorem claim_C9_counterexample :
    (juice_log_write ⟨3, false⟩ false
        ['1', '2', ':', '3', '4', ':', '5', '6'] 4
        ['u', 'd', 'p', '.', 'c'] 99 (List.replicate 4200 'a')).isStdout = true ∧
    BUFFER_SIZE < (juice_log_write ⟨3, false⟩ false
        ['1', '2', ':', '3', '4', ':', '5', '6'] 4
        ['u', 'd', 'p', '.', 'c'] 99 (List.replicate 4200 'a')).textLen := by
  constructor
  · rfl
  · show BUFFER_SIZE < (stdout_text false ['1', '2', ':', '3', '4', ':', '5', '6'] 4
        (log_filename ['u', 'd', 'p', '.', 'c']) 99 (List.replicate 4200 'a')).length
    simp only [stdout_text, if_neg Bool.false_ne_true, List.length_append,
      List.length_replicate, BUFFER_SIZE]
    omega

end LibJuice
